import Mathlib

/-!
Verification of the potential-field filtering operators of `codes/filtering.py`
(with the physical-constant table of `codes/constants.py`).

Embedding conventions:
* a numpy 2D array becomes a `Grid` (complex entries) or an `RGrid` (real
  entries): a pair of dimensions together with a total valuation function;
  every elementwise numpy operation takes its output dimensions from its
  first operand, which matches numpy broadcasting on the equal-shape inputs
  the operators are called with;
* floating-point arithmetic becomes exact real/complex arithmetic;
* `np.fft.fft2` / `np.fft.ifft2` are embedded concretely by their documented
  DFT formulas;
* Python `assert` / `raise` become an `Except PyError` result; an unbound
  variable name (a Python `NameError`) becomes the `nameError` outcome;
* the helper modules `auxiliars` (wavenumber, theta) and `derivative`
  (horzgrad, zderiv, totalgrad) are not part of the sources being verified;
  following the specification they are external collaborators known only by
  contract, so the operators are parametrised by them.
-/

open Finset

/-- Outcomes of the Python error paths: `AssertionError` on a scalar
precondition (the spec's InvalidParameter), `ValueError` on a shape
precondition (the spec's InvalidShape), and `NameError` for an unbound
variable name. -/
inductive PyError where
  | invalidParameter : String → PyError
  | invalidShape : String → PyError
  | nameError : String → PyError
deriving DecidableEq

/-- A numpy 2D complex array: dimensions plus a total valuation function
(entries outside the dimensions are irrelevant to every statement below). -/
structure Grid where
  rows : ℕ
  cols : ℕ
  vals : ℕ → ℕ → ℂ

/-- `numpy.ndarray.shape` of a 2D array. -/
def Grid.shape (g : Grid) : ℕ × ℕ := (g.rows, g.cols)

/-- A numpy 2D real array (the gradient adapters of the spec return real
grids: the tilt-family operators are purely real arithmetic). -/
structure RGrid where
  rows : ℕ
  cols : ℕ
  vals : ℕ → ℕ → ℝ

/-- `numpy.ndarray.shape` of a 2D real array. -/
def RGrid.shape (g : RGrid) : ℕ × ℕ := (g.rows, g.cols)

/-- Elementwise product `A * B` of two numpy arrays (shape taken from the
first operand, as broadcasting does on equal shapes). -/
def gmul (A B : Grid) : Grid :=
  ⟨A.rows, A.cols, fun i j => A.vals i j * B.vals i j⟩

/-- Elementwise quotient `A / B` of two numpy arrays. -/
noncomputable def gdiv (A B : Grid) : Grid :=
  ⟨A.rows, A.cols, fun i j => A.vals i j / B.vals i j⟩

/-- `A * c` for a scalar `c` (the `res *= C` step of `pseudograv`). -/
def gsmul (c : ℂ) (A : Grid) : Grid :=
  ⟨A.rows, A.cols, fun i j => A.vals i j * c⟩

/-- `A[0, 0] = c` : overwrite the DC entry of a frequency-domain array. -/
def setDC (A : Grid) (c : ℂ) : Grid :=
  ⟨A.rows, A.cols, fun i j => if i = 0 ∧ j = 0 then c else A.vals i j⟩

/-- `np.fft.fft2`: the 2D discrete Fourier transform,
`F[u, v] = Σ_{a,b} g[a, b] · exp(-2πi·(u·a/m + v·b/n))`. -/
noncomputable def fft2 (g : Grid) : Grid :=
  ⟨g.rows, g.cols, fun u v =>
    ∑ a ∈ Finset.range g.rows, ∑ b ∈ Finset.range g.cols,
      g.vals a b *
        Complex.exp (-(2 * Real.pi * Complex.I) *
          ((u : ℂ) * (a : ℂ) / (g.rows : ℂ) + (v : ℂ) * (b : ℂ) / (g.cols : ℂ)))⟩

/-- `np.fft.ifft2`: the inverse 2D discrete Fourier transform,
`f[a, b] = (1/(m·n)) Σ_{u,v} G[u, v] · exp(+2πi·(a·u/m + b·v/n))`. -/
noncomputable def ifft2 (g : Grid) : Grid :=
  ⟨g.rows, g.cols, fun a b =>
    (1 / ((g.rows : ℂ) * (g.cols : ℂ))) *
      ∑ u ∈ Finset.range g.rows, ∑ v ∈ Finset.range g.cols,
        g.vals u v *
          Complex.exp ((2 * Real.pi * Complex.I) *
            ((a : ℂ) * (u : ℂ) / (g.rows : ℂ) + (b : ℂ) * (v : ℂ) / (g.cols : ℂ)))⟩

/-- `np.arctan2(y, x)` on exact reals: the angle of the point `(x, y)`,
which is `Complex.arg ⟨x, y⟩`, with range `(-π, π]`. -/
noncomputable def arctan2 (y x : ℝ) : ℝ := Complex.arg ⟨x, y⟩

namespace filtering

/-- `kcont = np.exp((-H) * np.sqrt(kx**2 + ky**2))` built inside
`continuation` (both sign branches build this same array). -/
noncomputable def kcont (H : ℝ) (kx ky : Grid) : Grid :=
  ⟨kx.rows, kx.cols, fun i j =>
    Complex.exp ((-(H : ℂ)) * ((kx.vals i j ^ 2 + ky.vals i j ^ 2) ^ ((1 : ℂ) / 2)))⟩

/-- `filtering.continuation(x, y, data, H)`, parametrised by the external
wavenumber adapter `wn` (= `aux.wavenumber`).  Faithful translation of the
source: `assert H != 0.`; compute `kx, ky`; an `if H > 0 / elif H < 0`
branch pair whose two bodies are the identical formula; return
`np.fft.ifft2(result)` (were `H` neither positive nor negative the Python
name `result` would be unbound, hence the final `nameError`, unreachable
over the reals once `H ≠ 0`). -/
noncomputable def continuation (wn : Grid → Grid → Grid × Grid)
    (x y data : Grid) (H : ℝ) : Except PyError Grid :=
  if H = 0 then .error (.invalidParameter "Height must be different of zero!")
  else
    let kx := (wn x y).1
    let ky := (wn x y).2
    if 0 < H then .ok (ifft2 (gmul (kcont H kx ky) (fft2 data)))
    else if H < 0 then .ok (ifft2 (gmul (kcont H kx ky) (fft2 data)))
    else .error (.nameError "result")

/-- The single unbranched formula of the spec for `continuation`:
`ifft2(exp(-H·|k|) · fft2(data))`, no sign branch. -/
noncomputable def continuationSpec (wn : Grid → Grid → Grid × Grid)
    (x y data : Grid) (H : ℝ) : Grid :=
  ifft2 (gmul (kcont H (wn x y).1 (wn x y).2) (fft2 data))

/-- `filtering.reduction(x, y, data, oldf, olds, newf, news)`, translated
faithfully from the source.  Two bugs of the source are preserved:
* the shape test is the Python chained comparison
  `x.shape != y.shape != data.shape`, i.e. the conjunction
  `x.shape ≠ y.shape ∧ y.shape ≠ data.shape`, so it raises only when BOTH
  adjacent pairs differ;
* the first size assertion reads `olfd.size` where no variable `olfd`
  exists (the parameter is `oldf`), so every call that passes the shape
  test stops with a Python `NameError` before any computation. -/
def reduction (x y data : Grid) (oldf olds newf news : List ℝ) :
    Except PyError Grid :=
  if x.shape ≠ y.shape ∧ y.shape ≠ data.shape then
    .error (.invalidShape "Input arrays x, y, and data must have the same shape!")
  else
    .error (.nameError "olfd")

/-- The computation of `reduction` after its precondition block (source
lines 85-106): wavenumbers, the four `aux.theta` factors, the operator
`(f1*m1)/(f0*m0)` with its DC entry forced to `0`, and the Fourier
round-trip.  Parametrised by the external adapters `wn` (= `aux.wavenumber`)
and th (= `aux.theta`). -/
noncomputable def reductionCore (wn : Grid → Grid → Grid × Grid)
    (th : List ℝ → Grid → Grid → Grid)
    (x y data : Grid) (oldf olds newf news : List ℝ) : Grid :=
  let kx := (wn x y).1
  let ky := (wn x y).2
  let f0 := th oldf kx ky
  let m0 := th olds kx ky
  let f1 := th newf kx ky
  let m1 := th news kx ky
  let operator := setDC (gdiv (gmul f1 m1) (gmul f0 m0)) 0
  ifft2 (gmul operator (fft2 data))

/-- `filtering.tilt(x, y, data)`, parametrised by the external gradient
adapters `hg` (= `deriv.horzgrad`) and `zd` (= `deriv.zderiv`): the shape
assertions, then `np.arctan2(derivz, hgrad)` elementwise (output dimensions
from the first operand `derivz`). -/
noncomputable def tilt (hg : RGrid → RGrid → RGrid → RGrid)
    (zd : RGrid → RGrid → RGrid → ℕ → RGrid)
    (x y data : RGrid) : Except PyError RGrid :=
  if x.shape ≠ data.shape then
    .error (.invalidShape "Grid in X and data must have the same shape!")
  else if y.shape ≠ data.shape then
    .error (.invalidShape "Grid in Y and data must have the same shape!")
  else
    let hgrad := hg x y data
    let derivz := zd x y data 1
    .ok ⟨derivz.rows, derivz.cols, fun i j => arctan2 (derivz.vals i j) (hgrad.vals i j)⟩

/-- `filtering.thetamap(x, y, data)`, parametrised by the external gradient
adapters `hg` (= `deriv.horzgrad`) and `tg` (= `deriv.totalgrad`): the shape
assertions, then the elementwise quotient `hgrad / tgrad`. -/
noncomputable def thetamap (hg tg : RGrid → RGrid → RGrid → RGrid)
    (x y data : RGrid) : Except PyError RGrid :=
  if x.shape ≠ data.shape then
    .error (.invalidShape "Grid in X and data must have the same shape!")
  else if y.shape ≠ data.shape then
    .error (.invalidShape "Grid in Y and data must have the same shape!")
  else
    let hgrad := hg x y data
    let tgrad := tg x y data
    .ok ⟨hgrad.rows, hgrad.cols, fun i j => hgrad.vals i j / tgrad.vals i j⟩

/-- `filtering.hyperbolictilt(x, y, data)`: identical shape assertions and
identical `np.arctan2(derivz, hgrad)` formula as `tilt`, followed by
`np.real(hyptilt)` — the real part of an already real array. -/
noncomputable def hyperbolictilt (hg : RGrid → RGrid → RGrid → RGrid)
    (zd : RGrid → RGrid → RGrid → ℕ → RGrid)
    (x y data : RGrid) : Except PyError RGrid :=
  if x.shape ≠ data.shape then
    .error (.invalidShape "Grid in X and data must have the same shape!")
  else if y.shape ≠ data.shape then
    .error (.invalidShape "Grid in Y and data must have the same shape!")
  else
    let hgrad := hg x y data
    let derivz := zd x y data 1
    .ok ⟨derivz.rows, derivz.cols, fun i j =>
      ((arctan2 (derivz.vals i j) (hgrad.vals i j) : ℂ)).re⟩

/-- Local constant `G = 6.673e-11` of `pseudograv` (exact decimal). -/
def G : ℚ := 6.673e-11

/-- Local constant `si2mGal = 100000.0` of `pseudograv`. -/
def si2mGal : ℚ := 100000.0

/-- Local constant `t2nt = 1000000000.0` of `pseudograv`. -/
def t2nt : ℚ := 1000000000.0

/-- Local constant `cm = 0.0000001` of `pseudograv`. -/
def cm : ℚ := 0.0000001

/-- The scaling constant `C = G*rho*si2mGal/(cm*mag*t2nt)` computed inside
`pseudograv`. -/
noncomputable def C (rho mag : ℝ) : ℝ :=
  (G : ℝ) * rho * (si2mGal : ℝ) / ((cm : ℝ) * mag * (t2nt : ℝ))

/-- `filtering.pseudograv(x, y, data, field, source, rho, mag)`,
parametrised by the external adapters `wn` (= `aux.wavenumber`) and
th (= `aux.theta`).  The source's line `field.size == source.size, '...'`
is a bare expression, not an assertion, so it enforces nothing and is not
modelled; the commented-out `prod[0, 0] = 0.` likewise leaves the DC entry
untouched. -/
noncomputable def pseudograv (wn : Grid → Grid → Grid × Grid)
    (th : List ℝ → Grid → Grid → Grid)
    (x y data : Grid) (field source : List ℝ) (rho mag : ℝ) :
    Except PyError Grid :=
  if x.shape ≠ data.shape then
    .error (.invalidShape "Grid in X and data must have the same shape!")
  else if y.shape ≠ data.shape then
    .error (.invalidShape "Grid in Y and data must have the same shape!")
  else if rho = 0 then .error (.invalidParameter "Density must not be zero!")
  else if mag = 0 then .error (.invalidParameter "Density must not be zero!")
  else
    let kx := (wn x y).1
    let ky := (wn x y).2
    let k : Grid := ⟨kx.rows, kx.cols, fun i j =>
      (kx.vals i j ^ 2 + ky.vals i j ^ 2) ^ ((1 : ℂ) / 2)⟩
    let thetaf := th field kx ky
    let thetas := th source kx ky
    let prod : Grid := ⟨thetaf.rows, thetaf.cols, fun i j =>
      1 / (thetaf.vals i j * thetas.vals i j * k.vals i j)⟩
    let res := gmul (fft2 data) prod
    .ok (ifft2 (gsmul ((C rho mag : ℝ) : ℂ) res))

end filtering

namespace constants

/-- `constants.T2nT = 1000000000.` -/
def T2nT : ℚ := 1000000000.0

/-- `constants.nT2T = 0.000000001` -/
def nT2T : ℚ := 0.000000001

/-- `constants.cm = 0.0000001` -/
def cm : ℚ := 0.0000001

/-- `constants.G = 0.00000006673` -/
def G : ℚ := 0.00000006673

/-- `constants.si2mGal = 100000` -/
def si2mGal : ℚ := 100000

end constants

/-! ### Concrete fixtures for witnesses and counterexamples -/

/-- A trivial wavenumber adapter (returns the coordinate grids themselves);
it satisfies the spec contract `same shape as the inputs`. -/
def wn0 : Grid → Grid → Grid × Grid := fun a b => (a, b)

/-- A trivial direction-filter adapter (all-ones grid of the wavenumber
shape); it satisfies the spec contract `same shape as kx`. -/
def th1 : List ℝ → Grid → Grid → Grid := fun _ kx _ => ⟨kx.rows, kx.cols, fun _ _ => 1⟩

/-- The m×n all-zeros complex grid. -/
def czero (m n : ℕ) : Grid := ⟨m, n, fun _ _ => 0⟩

/-- The m×n all-ones complex grid. -/
def cones (m n : ℕ) : Grid := ⟨m, n, fun _ _ => 1⟩

/-- The m×n all-zeros real grid. -/
def rzero (m n : ℕ) : RGrid := ⟨m, n, fun _ _ => 0⟩

/-- A trivial horizontal-gradient adapter. -/
def hg0 : RGrid → RGrid → RGrid → RGrid := fun x _ _ => x

/-- A trivial total-gradient adapter. -/
def tg0 : RGrid → RGrid → RGrid → RGrid := fun x _ _ => x

/-- A trivial vertical-derivative adapter. -/
def zd0 : RGrid → RGrid → RGrid → ℕ → RGrid := fun x _ _ _ => x

/-! ### Discrete Fourier inversion -/

/-- The 1D Dirichlet kernel: summing `exp(2πi·u·(a-p)/n)` over one period
gives `n` on the diagonal and `0` off it. -/
lemma kernel_sum (n : ℕ) (hn : 0 < n) (a p : ℕ) (ha : a < n) (hp : p < n) :
    ∑ u ∈ Finset.range n,
      Complex.exp ((2 * Real.pi * Complex.I) * ((u : ℂ) * ((a : ℂ) - (p : ℂ)) / (n : ℂ))) =
    if a = p then (n : ℂ) else 0 := by
  have hn0 : (n : ℂ) ≠ 0 := Nat.cast_ne_zero.mpr hn.ne'
  set w : ℂ := (2 * Real.pi * Complex.I) * (((a : ℂ) - (p : ℂ)) / (n : ℂ)) with hw
  have hterm : ∀ u ∈ Finset.range n,
      Complex.exp ((2 * Real.pi * Complex.I) * ((u : ℂ) * ((a : ℂ) - (p : ℂ)) / (n : ℂ))) =
      Complex.exp w ^ u := by
    intro u _
    rw [← Complex.exp_nat_mul]
    congr 1
    rw [hw]; ring
  rw [Finset.sum_congr rfl hterm]
  by_cases hap : a = p
  · subst hap
    simp [hw]
  · rw [if_neg hap]
    have hz1 : Complex.exp w ≠ 1 := by
      intro h1
      obtain ⟨k, hk⟩ := Complex.exp_eq_one_iff.mp h1
      rw [hw] at hk
      have h2pi : (2 * Real.pi * Complex.I) ≠ 0 := by
        simp [Real.pi_ne_zero, Complex.I_ne_zero]
      have hdiv : ((a : ℂ) - (p : ℂ)) / (n : ℂ) = (k : ℂ) :=
        mul_left_cancel₀ h2pi (hk.trans (by ring))
      have hZc : ((a : ℂ) - (p : ℂ)) = (k : ℂ) * (n : ℂ) := (div_eq_iff hn0).mp hdiv
      have hZ : (a : ℤ) - (p : ℤ) = k * (n : ℤ) := by exact_mod_cast hZc
      have hk0 : k ≠ 0 := by
        rintro rfl
        simp at hZ
        omega
      have habs : ((a : ℤ) - (p : ℤ)).natAbs < n := by omega
      have hge : n ≤ ((a : ℤ) - (p : ℤ)).natAbs := by
        rw [hZ, Int.natAbs_mul, Int.natAbs_ofNat]
        calc n = 1 * n := (one_mul n).symm
        _ ≤ k.natAbs * n :=
          Nat.mul_le_mul_right n (Nat.one_le_iff_ne_zero.mpr (Int.natAbs_ne_zero.mpr hk0))
      omega
    have hzn : Complex.exp w ^ n = 1 := by
      rw [← Complex.exp_nat_mul]
      have : (n : ℂ) * w = ((a : ℤ) - (p : ℤ) : ℂ) * (2 * Real.pi * Complex.I) := by
        rw [hw]
        push_cast
        field_simp
        ring
      rw [this]
      exact_mod_cast Complex.exp_int_mul_two_pi_mul_I ((a : ℤ) - (p : ℤ))
    rw [geom_sum_eq hz1, hzn]
    simp

/-- Collapse of a sum against a Kronecker-type factor on the right. -/
lemma sum_ite_collapse (n : ℕ) (b : ℕ) (hb : b < n) (c : ℂ) (f : ℕ → ℂ) :
    ∑ q ∈ Finset.range n, f q * (if b = q then c else 0) = f b * c := by
  simp only [mul_ite, mul_zero, Finset.sum_ite_eq, Finset.mem_range]
  exact if_pos hb

/-- Fubini for the quadruple sums of the Fourier round-trips: bring the
spatial indices outside the frequency indices. -/
lemma sum_swap4 (m n : ℕ) (t : ℕ → ℕ → ℕ → ℕ → ℂ) :
    (∑ u ∈ Finset.range m, ∑ v ∈ Finset.range n,
      ∑ p ∈ Finset.range m, ∑ q ∈ Finset.range n, t u v p q) =
    ∑ p ∈ Finset.range m, ∑ q ∈ Finset.range n,
      ∑ u ∈ Finset.range m, ∑ v ∈ Finset.range n, t u v p q := by
  calc (∑ u ∈ Finset.range m, ∑ v ∈ Finset.range n,
          ∑ p ∈ Finset.range m, ∑ q ∈ Finset.range n, t u v p q)
      = ∑ u ∈ Finset.range m, ∑ p ∈ Finset.range m,
          ∑ v ∈ Finset.range n, ∑ q ∈ Finset.range n, t u v p q :=
        Finset.sum_congr rfl fun u _ => Finset.sum_comm
    _ = ∑ p ∈ Finset.range m, ∑ u ∈ Finset.range m,
          ∑ v ∈ Finset.range n, ∑ q ∈ Finset.range n, t u v p q :=
        Finset.sum_comm
    _ = ∑ p ∈ Finset.range m, ∑ u ∈ Finset.range m,
          ∑ q ∈ Finset.range n, ∑ v ∈ Finset.range n, t u v p q :=
        Finset.sum_congr rfl fun p _ => Finset.sum_congr rfl fun u _ => Finset.sum_comm
    _ = ∑ p ∈ Finset.range m, ∑ q ∈ Finset.range n,
          ∑ u ∈ Finset.range m, ∑ v ∈ Finset.range n, t u v p q :=
        Finset.sum_congr rfl fun p _ => Finset.sum_comm

/-- `np.fft.ifft2(np.fft.fft2(g))` returns `g` on the grid proper. -/
lemma ifft2_fft2_vals (g : Grid) (hm : 0 < g.rows) (hn : 0 < g.cols)
    (a b : ℕ) (ha : a < g.rows) (hb : b < g.cols) :
    (ifft2 (fft2 g)).vals a b = g.vals a b := by
  obtain ⟨m, n, f⟩ := g
  simp only at hm hn ha hb
  show (1 / ((m : ℂ) * (n : ℂ))) *
      (∑ u ∈ Finset.range m, ∑ v ∈ Finset.range n,
        (∑ p ∈ Finset.range m, ∑ q ∈ Finset.range n, f p q *
          Complex.exp (-(2 * Real.pi * Complex.I) *
            ((u : ℂ) * (p : ℂ) / (m : ℂ) + (v : ℂ) * (q : ℂ) / (n : ℂ)))) *
        Complex.exp ((2 * Real.pi * Complex.I) *
          ((a : ℂ) * (u : ℂ) / (m : ℂ) + (b : ℂ) * (v : ℂ) / (n : ℂ)))) = f a b
  have hm0 : (m : ℂ) ≠ 0 := Nat.cast_ne_zero.mpr hm.ne'
  have hn0 : (n : ℂ) ≠ 0 := Nat.cast_ne_zero.mpr hn.ne'
  have expmerge : ∀ u ∈ Finset.range m, ∀ v ∈ Finset.range n,
      (∑ p ∈ Finset.range m, ∑ q ∈ Finset.range n, f p q *
        Complex.exp (-(2 * Real.pi * Complex.I) *
          ((u : ℂ) * (p : ℂ) / (m : ℂ) + (v : ℂ) * (q : ℂ) / (n : ℂ)))) *
      Complex.exp ((2 * Real.pi * Complex.I) *
        ((a : ℂ) * (u : ℂ) / (m : ℂ) + (b : ℂ) * (v : ℂ) / (n : ℂ)))
      = ∑ p ∈ Finset.range m, ∑ q ∈ Finset.range n, f p q *
          (Complex.exp ((2 * Real.pi * Complex.I) * ((u : ℂ) * ((a : ℂ) - (p : ℂ)) / (m : ℂ))) *
           Complex.exp ((2 * Real.pi * Complex.I) * ((v : ℂ) * ((b : ℂ) - (q : ℂ)) / (n : ℂ)))) := by
    intro u _ v _
    rw [Finset.sum_mul]
    refine Finset.sum_congr rfl fun p _ => ?_
    rw [Finset.sum_mul]
    refine Finset.sum_congr rfl fun q _ => ?_
    rw [mul_assoc, ← Complex.exp_add, ← Complex.exp_add]
    congr 2
    ring
  rw [Finset.sum_congr rfl fun u hu => Finset.sum_congr rfl fun v hv => expmerge u hu v hv,
    sum_swap4]
  have inner : ∀ p ∈ Finset.range m, ∀ q ∈ Finset.range n,
      (∑ u ∈ Finset.range m, ∑ v ∈ Finset.range n, f p q *
        (Complex.exp ((2 * Real.pi * Complex.I) * ((u : ℂ) * ((a : ℂ) - (p : ℂ)) / (m : ℂ))) *
         Complex.exp ((2 * Real.pi * Complex.I) * ((v : ℂ) * ((b : ℂ) - (q : ℂ)) / (n : ℂ)))))
      = f p q * ((if a = p then (m : ℂ) else 0) * (if b = q then (n : ℂ) else 0)) := by
    intro p hp q hq
    simp only [← Finset.mul_sum]
    rw [← Finset.sum_mul,
      kernel_sum m hm a p ha (Finset.mem_range.mp hp),
      kernel_sum n hn b q hb (Finset.mem_range.mp hq)]
  rw [Finset.sum_congr rfl fun p hp => Finset.sum_congr rfl fun q hq => inner p hp q hq]
  have col1 : ∀ p ∈ Finset.range m,
      (∑ q ∈ Finset.range n, f p q *
        ((if a = p then (m : ℂ) else 0) * (if b = q then (n : ℂ) else 0)))
      = (f p b * (n : ℂ)) * (if a = p then (m : ℂ) else 0) := by
    intro p _
    have := sum_ite_collapse n b hb (n : ℂ)
      (fun q => f p q * (if a = p then (m : ℂ) else 0))
    calc (∑ q ∈ Finset.range n, f p q *
            ((if a = p then (m : ℂ) else 0) * (if b = q then (n : ℂ) else 0)))
        = ∑ q ∈ Finset.range n, (f p q * (if a = p then (m : ℂ) else 0)) *
            (if b = q then (n : ℂ) else 0) :=
          Finset.sum_congr rfl fun q _ => by ring
      _ = (f p b * (if a = p then (m : ℂ) else 0)) * (n : ℂ) := this
      _ = (f p b * (n : ℂ)) * (if a = p then (m : ℂ) else 0) := by ring
  rw [Finset.sum_congr rfl col1, sum_ite_collapse m a ha (m : ℂ) (fun p => f p b * (n : ℂ))]
  field_simp
  ring

/-- Collapse of a sum against a Kronecker-type factor whose equality test
has the summation index on the left. -/
lemma sum_ite_collapse2 (n : ℕ) (b : ℕ) (hb : b < n) (c : ℂ) (f : ℕ → ℂ) :
    ∑ q ∈ Finset.range n, f q * (if q = b then c else 0) = f b * c := by
  simp only [mul_ite, mul_zero, Finset.sum_ite_eq', Finset.mem_range]
  exact if_pos hb

/-- `np.fft.fft2(np.fft.ifft2(g))` returns `g` on the grid proper. -/
lemma fft2_ifft2_vals (g : Grid) (hm : 0 < g.rows) (hn : 0 < g.cols)
    (a b : ℕ) (ha : a < g.rows) (hb : b < g.cols) :
    (fft2 (ifft2 g)).vals a b = g.vals a b := by
  obtain ⟨m, n, f⟩ := g
  simp only at hm hn ha hb
  show (∑ u ∈ Finset.range m, ∑ v ∈ Finset.range n,
      ((1 / ((m : ℂ) * (n : ℂ))) *
        ∑ p ∈ Finset.range m, ∑ q ∈ Finset.range n, f p q *
          Complex.exp ((2 * Real.pi * Complex.I) *
            ((u : ℂ) * (p : ℂ) / (m : ℂ) + (v : ℂ) * (q : ℂ) / (n : ℂ)))) *
      Complex.exp (-(2 * Real.pi * Complex.I) *
        ((a : ℂ) * (u : ℂ) / (m : ℂ) + (b : ℂ) * (v : ℂ) / (n : ℂ)))) = f a b
  have hm0 : (m : ℂ) ≠ 0 := Nat.cast_ne_zero.mpr hm.ne'
  have hn0 : (n : ℂ) ≠ 0 := Nat.cast_ne_zero.mpr hn.ne'
  have expmerge : ∀ u ∈ Finset.range m, ∀ v ∈ Finset.range n,
      ((1 / ((m : ℂ) * (n : ℂ))) *
        ∑ p ∈ Finset.range m, ∑ q ∈ Finset.range n, f p q *
          Complex.exp ((2 * Real.pi * Complex.I) *
            ((u : ℂ) * (p : ℂ) / (m : ℂ) + (v : ℂ) * (q : ℂ) / (n : ℂ)))) *
      Complex.exp (-(2 * Real.pi * Complex.I) *
        ((a : ℂ) * (u : ℂ) / (m : ℂ) + (b : ℂ) * (v : ℂ) / (n : ℂ)))
      = (1 / ((m : ℂ) * (n : ℂ))) *
          ∑ p ∈ Finset.range m, ∑ q ∈ Finset.range n, f p q *
            (Complex.exp ((2 * Real.pi * Complex.I) * ((u : ℂ) * ((p : ℂ) - (a : ℂ)) / (m : ℂ))) *
             Complex.exp ((2 * Real.pi * Complex.I) * ((v : ℂ) * ((q : ℂ) - (b : ℂ)) / (n : ℂ)))) := by
    intro u _ v _
    rw [mul_assoc]
    congr 1
    rw [Finset.sum_mul]
    refine Finset.sum_congr rfl fun p _ => ?_
    rw [Finset.sum_mul]
    refine Finset.sum_congr rfl fun q _ => ?_
    rw [mul_assoc, ← Complex.exp_add, ← Complex.exp_add]
    congr 2
    ring
  rw [Finset.sum_congr rfl fun u hu => Finset.sum_congr rfl fun v hv => expmerge u hu v hv]
  simp only [← Finset.mul_sum]
  rw [sum_swap4]
  have inner : ∀ p ∈ Finset.range m, ∀ q ∈ Finset.range n,
      (∑ u ∈ Finset.range m, ∑ v ∈ Finset.range n, f p q *
        (Complex.exp ((2 * Real.pi * Complex.I) * ((u : ℂ) * ((p : ℂ) - (a : ℂ)) / (m : ℂ))) *
         Complex.exp ((2 * Real.pi * Complex.I) * ((v : ℂ) * ((q : ℂ) - (b : ℂ)) / (n : ℂ)))))
      = f p q * ((if p = a then (m : ℂ) else 0) * (if q = b then (n : ℂ) else 0)) := by
    intro p hp q hq
    simp only [← Finset.mul_sum]
    rw [← Finset.sum_mul,
      kernel_sum m hm p a (Finset.mem_range.mp hp) ha,
      kernel_sum n hn q b (Finset.mem_range.mp hq) hb]
  rw [Finset.sum_congr rfl fun p hp => Finset.sum_congr rfl fun q hq => inner p hp q hq]
  have col1 : ∀ p ∈ Finset.range m,
      (∑ q ∈ Finset.range n, f p q *
        ((if p = a then (m : ℂ) else 0) * (if q = b then (n : ℂ) else 0)))
      = (f p b * (n : ℂ)) * (if p = a then (m : ℂ) else 0) := by
    intro p _
    have := sum_ite_collapse2 n b hb (n : ℂ)
      (fun q => f p q * (if p = a then (m : ℂ) else 0))
    calc (∑ q ∈ Finset.range n, f p q *
            ((if p = a then (m : ℂ) else 0) * (if q = b then (n : ℂ) else 0)))
        = ∑ q ∈ Finset.range n, (f p q * (if p = a then (m : ℂ) else 0)) *
            (if q = b then (n : ℂ) else 0) :=
          Finset.sum_congr rfl fun q _ => by ring
      _ = (f p b * (if p = a then (m : ℂ) else 0)) * (n : ℂ) := this
      _ = (f p b * (n : ℂ)) * (if p = a then (m : ℂ) else 0) := by ring
  rw [Finset.sum_congr rfl col1, sum_ite_collapse2 m a ha (m : ℂ) (fun p => f p b * (n : ℂ))]
  field_simp
  ring

/-! ### Claim theorems -/

/-- C2: for every `x`, `y`, `data`, `continuation(x, y, data, 0)` fails with
the InvalidParameter error ("height must differ from zero") before any
computation, and for every `H ≠ 0` the call does not raise this error (it
returns a grid). -/
theorem C2_zero_height_rejection :
    (∀ (wn : Grid → Grid → Grid × Grid) (x y data : Grid),
      filtering.continuation wn x y data 0 =
        .error (.invalidParameter "Height must be different of zero!")) ∧
    ∀ (wn : Grid → Grid → Grid × Grid) (x y data : Grid) (H : ℝ), H ≠ 0 →
      ∃ g, filtering.continuation wn x y data H = .ok g := by
  constructor
  · intro wn x y data
    simp [filtering.continuation]
  · intro wn x y data H hH
    rcases lt_trichotomy H 0 with h | h | h
    · exact ⟨ifft2 (gmul (filtering.kcont H (wn x y).1 (wn x y).2) (fft2 data)),
        by simp [filtering.continuation, hH, h, asymm h]⟩
    · exact absurd h hH
    · exact ⟨ifft2 (gmul (filtering.kcont H (wn x y).1 (wn x y).2) (fft2 data)),
        by simp [filtering.continuation, hH, h]⟩

/-- Witness for C2 at a concrete input (`H = 0` rejected, `H = 1` accepted). -/
theorem C2_zero_height_rejection_witness :
    filtering.continuation wn0 (czero 1 1) (czero 1 1) (czero 1 1) 0 =
      .error (.invalidParameter "Height must be different of zero!") ∧
    ∃ g, filtering.continuation wn0 (czero 1 1) (czero 1 1) (czero 1 1) 1 = .ok g :=
  ⟨C2_zero_height_rejection.1 wn0 (czero 1 1) (czero 1 1) (czero 1 1),
   C2_zero_height_rejection.2 wn0 (czero 1 1) (czero 1 1) (czero 1 1) 1 one_ne_zero⟩

/-- C4: for every `H ≠ 0` both sign branches of `continuation` compute the
identical frequency-domain operator `exp(-H·sqrt(kx²+ky²))`, so the function
coincides with the single unbranched formula `continuationSpec`. -/
theorem C4_sign_branches_agree (wn : Grid → Grid → Grid × Grid)
    (x y data : Grid) (H : ℝ) (hH : H ≠ 0) :
    filtering.continuation wn x y data H =
      .ok (filtering.continuationSpec wn x y data H) := by
  rcases lt_trichotomy H 0 with h | h | h
  · simp [filtering.continuation, filtering.continuationSpec, hH, h, asymm h]
  · exact absurd h hH
  · simp [filtering.continuation, filtering.continuationSpec, hH, h]

/-- Witness for C4 at `H = 1` (and at `H = -1`, exercising both branches). -/
theorem C4_sign_branches_agree_witness :
    filtering.continuation wn0 (czero 1 1) (czero 1 1) (czero 1 1) 1 =
      .ok (filtering.continuationSpec wn0 (czero 1 1) (czero 1 1) (czero 1 1) 1) ∧
    filtering.continuation wn0 (czero 1 1) (czero 1 1) (czero 1 1) (-1) =
      .ok (filtering.continuationSpec wn0 (czero 1 1) (czero 1 1) (czero 1 1) (-1)) :=
  ⟨C4_sign_branches_agree wn0 (czero 1 1) (czero 1 1) (czero 1 1) 1 one_ne_zero,
   C4_sign_branches_agree wn0 (czero 1 1) (czero 1 1) (czero 1 1) (-1) (by norm_num)⟩

/-- C5 (code bug): the source's chained test
`x.shape != y.shape != data.shape` raises only when BOTH adjacent pairs
differ.  At the two failing inputs of the claim — `x.shape = y.shape` with
`data.shape` different, and `x.shape ≠ y.shape` with `y.shape = data.shape`
— no InvalidShape error is raised: the call falls through to the unbound
name `olfd` (a NameError) instead. -/
theorem C5_chained_shape_check_misses :
    filtering.reduction (czero 2 2) (czero 2 2) (czero 3 3)
        [30, 45] [30, 45] [30, 45] [30, 45] = .error (.nameError "olfd") ∧
    filtering.reduction (czero 2 2) (czero 3 3) (czero 3 3)
        [30, 45] [30, 45] [30, 45] [30, 45] = .error (.nameError "olfd") := by
  constructor <;> simp [filtering.reduction, Grid.shape, czero]

/-- C6 (code bug): on grids of one common shape and direction vectors of
equal size 2, the size check does not pass silently: the code stops with a
NameError on the unbound name `olfd` instead of proceeding. -/
theorem C6_size_check_name_error :
    filtering.reduction (czero 2 2) (czero 2 2) (czero 2 2)
        [30, 45] [30, 45] [30, 45] [30, 45] = .error (.nameError "olfd") := by
  simp [filtering.reduction, Grid.shape, czero]

/-- C9: `hyperbolictilt` computes exactly the same
`atan2(verticalDerivative, horizontalGradientMagnitude)` formula as `tilt`
and returns only the real part of the (already real) result, so it equals
`tilt` — no hyperbolic function is applied. -/
theorem C9_hyperbolictilt_eq_tilt (hg : RGrid → RGrid → RGrid → RGrid)
    (zd : RGrid → RGrid → RGrid → ℕ → RGrid) (x y data : RGrid) :
    filtering.hyperbolictilt hg zd x y data = filtering.tilt hg zd x y data := by
  unfold filtering.hyperbolictilt filtering.tilt
  simp only [Complex.ofReal_re]

/-- C10 counterexample: the gravitational constant used inside `pseudograv`
(`6.673e-11`) is NOT equal to the `G` of the constants table
(`0.00000006673 = 6.673e-8`): they differ by a factor of 1000. -/
theorem C10_G_mismatch : filtering.G ≠ constants.G := by
  norm_num [filtering.G, constants.G]

/-- C10 amended: the scaling constant of `pseudograv` is
`C = G*rho*si2mGal/(cm*mag*t2nt)`, and three of its four fixed constants
(`si2mGal`, `cm`, `t2nt`) are exactly the table values (`si2mGal`, `cm`,
`T2nT`); the fourth, `G = 6.673e-11`, differs from the table's
`G = 6.673e-8` by exactly a factor of 1000. -/
theorem C10_pseudograv_constants :
    (∀ rho mag : ℝ, filtering.C rho mag =
      (filtering.G : ℝ) * rho * (filtering.si2mGal : ℝ) /
        ((filtering.cm : ℝ) * mag * (filtering.t2nt : ℝ))) ∧
    filtering.si2mGal = constants.si2mGal ∧
    filtering.cm = constants.cm ∧
    filtering.t2nt = constants.T2nT ∧
    filtering.G ≠ constants.G ∧
    filtering.G * 1000 = constants.G := by
  refine ⟨fun rho mag => rfl, ?_, ?_, ?_, ?_, ?_⟩
  · norm_num [filtering.si2mGal, constants.si2mGal]
  · norm_num [filtering.cm, constants.cm]
  · norm_num [filtering.t2nt, constants.T2nT]
  · norm_num [filtering.G, constants.G]
  · norm_num [filtering.G, constants.G]

/-- C8: every output sample of `tilt` lies in the half-open interval
`(-π, π]` (the range of `atan2` over exact reals). -/
theorem C8_tilt_range (hg : RGrid → RGrid → RGrid → RGrid)
    (zd : RGrid → RGrid → RGrid → ℕ → RGrid) (x y data : RGrid) (g : RGrid)
    (hok : filtering.tilt hg zd x y data = .ok g) (i j : ℕ) :
    g.vals i j ∈ Set.Ioc (-Real.pi) Real.pi := by
  unfold filtering.tilt at hok
  split at hok
  · exact Except.noConfusion hok
  split at hok
  · exact Except.noConfusion hok
  injection hok with h
  subst h
  exact Complex.arg_mem_Ioc _

/-- Witness for C8 at a concrete valid input. -/
theorem C8_tilt_range_witness :
    ∃ g, filtering.tilt hg0 zd0 (rzero 1 1) (rzero 1 1) (rzero 1 1) = .ok g ∧
      g.vals 0 0 ∈ Set.Ioc (-Real.pi) Real.pi := by
  refine ⟨⟨1, 1, fun i j => arctan2 ((rzero 1 1).vals i j) ((rzero 1 1).vals i j)⟩, ?h, ?_⟩
  case h => simp [filtering.tilt, RGrid.shape, rzero, hg0, zd0]
  exact C8_tilt_range hg0 zd0 (rzero 1 1) (rzero 1 1) (rzero 1 1) _
    (by simp [filtering.tilt, RGrid.shape, rzero, hg0, zd0]) 0 0

/-- C1: under the data-model invariant (all grids of one call share the
data shape) and the spec contracts of the external adapters (wavenumber
grids have the input shape, theta grids have the wavenumber shape, gradient
grids have the data shape), the output grid of each of the six operators
has exactly the shape of the input data grid.  For `reduction` the
statement is about its computation (`reductionCore`): the full function
never returns normally because of the unbound-name bug settled by C6. -/
theorem C1_shape_invariance
    (wn : Grid → Grid → Grid × Grid) (th : List ℝ → Grid → Grid → Grid)
    (hg tg : RGrid → RGrid → RGrid → RGrid) (zd : RGrid → RGrid → RGrid → ℕ → RGrid)
    (x y data : Grid) (rx ry rdata : RGrid)
    (oldf olds newf news field source : List ℝ)
    (hwn1 : (wn x y).1.shape = data.shape)
    (hth : ∀ v kx ky, (th v kx ky).shape = kx.shape)
    (hzd : (zd rx ry rdata 1).shape = rdata.shape)
    (hhg : (hg rx ry rdata).shape = rdata.shape) :
    (∀ H g, filtering.continuation wn x y data H = .ok g → g.shape = data.shape) ∧
    (filtering.reductionCore wn th x y data oldf olds newf news).shape = data.shape ∧
    (∀ g, filtering.tilt hg zd rx ry rdata = .ok g → g.shape = rdata.shape) ∧
    (∀ g, filtering.thetamap hg tg rx ry rdata = .ok g → g.shape = rdata.shape) ∧
    (∀ g, filtering.hyperbolictilt hg zd rx ry rdata = .ok g → g.shape = rdata.shape) ∧
    (∀ rho mag g, filtering.pseudograv wn th x y data field source rho mag = .ok g →
      g.shape = data.shape) := by
  refine ⟨?_, ?_, ?_, ?_, ?_, ?_⟩
  · intro H g hok
    unfold filtering.continuation at hok
    split at hok
    · exact Except.noConfusion hok
    split at hok
    · injection hok with h
      subst h
      exact hwn1
    split at hok
    · injection hok with h
      subst h
      exact hwn1
    · exact Except.noConfusion hok
  · show ((th newf (wn x y).1 (wn x y).2).rows, (th newf (wn x y).1 (wn x y).2).cols)
      = data.shape
    rw [show ((th newf (wn x y).1 (wn x y).2).rows, (th newf (wn x y).1 (wn x y).2).cols)
      = (th newf (wn x y).1 (wn x y).2).shape from rfl, hth, hwn1]
  · intro g hok
    unfold filtering.tilt at hok
    split at hok
    · exact Except.noConfusion hok
    split at hok
    · exact Except.noConfusion hok
    injection hok with h
    subst h
    exact hzd
  · intro g hok
    unfold filtering.thetamap at hok
    split at hok
    · exact Except.noConfusion hok
    split at hok
    · exact Except.noConfusion hok
    injection hok with h
    subst h
    exact hhg
  · intro g hok
    unfold filtering.hyperbolictilt at hok
    split at hok
    · exact Except.noConfusion hok
    split at hok
    · exact Except.noConfusion hok
    injection hok with h
    subst h
    exact hzd
  · intro rho mag g hok
    unfold filtering.pseudograv at hok
    split at hok
    · exact Except.noConfusion hok
    split at hok
    · exact Except.noConfusion hok
    split at hok
    · exact Except.noConfusion hok
    split at hok
    · exact Except.noConfusion hok
    injection hok with h
    subst h
    rfl

/-- Witness for C1 at concrete valid inputs satisfying every adapter
contract. -/
theorem C1_shape_invariance_witness :
    (∀ H g, filtering.continuation wn0 (czero 1 1) (czero 1 1) (czero 1 1) H = .ok g →
      g.shape = (czero 1 1).shape) ∧
    (filtering.reductionCore wn0 th1 (czero 1 1) (czero 1 1) (czero 1 1)
      [30, 45] [30, 45] [30, 45] [30, 45]).shape = (czero 1 1).shape ∧
    (∀ g, filtering.tilt hg0 zd0 (rzero 1 1) (rzero 1 1) (rzero 1 1) = .ok g →
      g.shape = (rzero 1 1).shape) ∧
    (∀ g, filtering.thetamap hg0 tg0 (rzero 1 1) (rzero 1 1) (rzero 1 1) = .ok g →
      g.shape = (rzero 1 1).shape) ∧
    (∀ g, filtering.hyperbolictilt hg0 zd0 (rzero 1 1) (rzero 1 1) (rzero 1 1) = .ok g →
      g.shape = (rzero 1 1).shape) ∧
    (∀ rho mag g, filtering.pseudograv wn0 th1 (czero 1 1) (czero 1 1) (czero 1 1)
      [30, 45] [30, 45] rho mag = .ok g → g.shape = (czero 1 1).shape) :=
  C1_shape_invariance wn0 th1 hg0 tg0 zd0 (czero 1 1) (czero 1 1) (czero 1 1)
    (rzero 1 1) (rzero 1 1) (rzero 1 1) [30, 45] [30, 45] [30, 45] [30, 45]
    [30, 45] [30, 45] rfl (fun _ _ _ => rfl) rfl rfl

/-- `ifft2` only reads its argument on the grid proper, so it respects
agreement there (given equal dimensions). -/
lemma ifft2_congr_on (P Q : Grid) (hr : P.rows = Q.rows) (hc : P.cols = Q.cols)
    (hv : ∀ u < Q.rows, ∀ v < Q.cols, P.vals u v = Q.vals u v) (a b : ℕ) :
    (ifft2 P).vals a b = (ifft2 Q).vals a b := by
  obtain ⟨pr, pc, pv⟩ := P
  obtain ⟨qr, qc, qv⟩ := Q
  simp only at hr hc hv
  subst hr
  subst hc
  simp only [ifft2]
  congr 1
  refine Finset.sum_congr rfl fun u hu => Finset.sum_congr rfl fun v hv2 => ?_
  rw [hv u (Finset.mem_range.mp hu) v (Finset.mem_range.mp hv2)]

/-- For `H ≠ 0` both branches of `continuation` produce the unbranched
formula. -/
lemma continuation_eq_spec (wn : Grid → Grid → Grid × Grid)
    (x y data : Grid) (H : ℝ) (hH : H ≠ 0) :
    filtering.continuation wn x y data H =
      .ok (filtering.continuationSpec wn x y data H) := by
  rcases lt_trichotomy H 0 with h | h | h
  · simp [filtering.continuation, filtering.continuationSpec, hH, h, asymm h]
  · exact absurd h hH
  · simp [filtering.continuation, filtering.continuationSpec, hH, h]

/-- The two `kcont` factors at opposite heights cancel. -/
lemma kcont_cancel (H : ℝ) (s Fv : ℂ) :
    Complex.exp ((-(((-H : ℝ)) : ℂ)) * s) * (Complex.exp ((-(H : ℂ)) * s) * Fv) = Fv := by
  rw [← mul_assoc, ← Complex.exp_add,
    show (-(((-H : ℝ)) : ℂ)) * s + (-(H : ℂ)) * s = 0 from by push_cast; ring]
  simp

/-- C3: for every grid and every `H ≠ 0` (over exact arithmetic, hence with
no numerical blow-up), continuing a continued grid back with `-H` returns
the original data exactly on the grid proper: continuation is inverted by
negating the level shift. -/
theorem C3_continuation_roundtrip
    (wn : Grid → Grid → Grid × Grid) (x y data : Grid) (H : ℝ) (hH : H ≠ 0)
    (hm : 0 < data.rows) (hn : 0 < data.cols)
    (hkx : (wn x y).1.shape = data.shape) :
    ∃ g r, filtering.continuation wn x y data H = .ok g ∧
      filtering.continuation wn x y g (-H) = .ok r ∧
      r.shape = data.shape ∧
      ∀ i < data.rows, ∀ j < data.cols, r.vals i j = data.vals i j := by
  have hr1 : (wn x y).1.rows = data.rows := congrArg Prod.fst hkx
  have hc1 : (wn x y).1.cols = data.cols := congrArg Prod.snd hkx
  refine ⟨filtering.continuationSpec wn x y data H,
    filtering.continuationSpec wn x y (filtering.continuationSpec wn x y data H) (-H),
    continuation_eq_spec wn x y data H hH,
    continuation_eq_spec wn x y (filtering.continuationSpec wn x y data H) (-H)
      (neg_ne_zero.mpr hH),
    hkx, ?_⟩
  intro i hi j hj
  show (ifft2 (gmul (filtering.kcont (-H) (wn x y).1 (wn x y).2)
      (fft2 (ifft2 (gmul (filtering.kcont H (wn x y).1 (wn x y).2)
        (fft2 data)))))).vals i j = data.vals i j
  have hX : ∀ u < data.rows, ∀ v < data.cols,
      (gmul (filtering.kcont (-H) (wn x y).1 (wn x y).2)
        (fft2 (ifft2 (gmul (filtering.kcont H (wn x y).1 (wn x y).2)
          (fft2 data))))).vals u v = (fft2 data).vals u v := by
    intro u hu v hv
    have hfi := fft2_ifft2_vals
      (gmul (filtering.kcont H (wn x y).1 (wn x y).2) (fft2 data))
      (by exact hr1.symm ▸ hm) (by exact hc1.symm ▸ hn) u v
      (by exact hr1.symm ▸ hu) (by exact hc1.symm ▸ hv)
    calc (gmul (filtering.kcont (-H) (wn x y).1 (wn x y).2)
          (fft2 (ifft2 (gmul (filtering.kcont H (wn x y).1 (wn x y).2)
            (fft2 data))))).vals u v
        = (filtering.kcont (-H) (wn x y).1 (wn x y).2).vals u v *
            (fft2 (ifft2 (gmul (filtering.kcont H (wn x y).1 (wn x y).2)
              (fft2 data)))).vals u v := rfl
      _ = (filtering.kcont (-H) (wn x y).1 (wn x y).2).vals u v *
            ((filtering.kcont H (wn x y).1 (wn x y).2).vals u v *
              (fft2 data).vals u v) := by rw [hfi]; rfl
      _ = (fft2 data).vals u v := kcont_cancel H _ _
  calc (ifft2 (gmul (filtering.kcont (-H) (wn x y).1 (wn x y).2)
        (fft2 (ifft2 (gmul (filtering.kcont H (wn x y).1 (wn x y).2)
          (fft2 data)))))).vals i j
      = (ifft2 (fft2 data)).vals i j :=
        ifft2_congr_on (gmul (filtering.kcont (-H) (wn x y).1 (wn x y).2)
          (fft2 (ifft2 (gmul (filtering.kcont H (wn x y).1 (wn x y).2)
            (fft2 data))))) (fft2 data) hr1 hc1 hX i j
    _ = data.vals i j := ifft2_fft2_vals data hm hn i j hi hj

/-- Collapsing a double sum against a mask supported at the DC index. -/
lemma sum_dc_collapse (m n : ℕ) (hm : 0 < m) (hn : 0 < n) (c : ℂ) (e : ℕ → ℕ → ℂ) :
    ∑ u ∈ Finset.range m, ∑ v ∈ Finset.range n,
      (if u = 0 ∧ v = 0 then c else 0) * e u v = c * e 0 0 := by
  have h1 : ∀ u ∈ Finset.range m,
      (∑ v ∈ Finset.range n, (if u = 0 ∧ v = 0 then c else 0) * e u v)
      = (c * e 0 0) * (if u = 0 then (1 : ℂ) else 0) := by
    intro u _
    by_cases hu : u = 0
    · subst hu
      rw [show (∑ v ∈ Finset.range n, (if 0 = 0 ∧ v = 0 then c else 0) * e 0 v)
          = ∑ v ∈ Finset.range n, (c * e 0 v) * (if v = 0 then (1 : ℂ) else 0) from
        Finset.sum_congr rfl fun v _ => by by_cases hv : v = 0 <;> simp [hv]]
      rw [sum_ite_collapse2 n 0 hn 1 (fun v => c * e 0 v)]
      simp
    · simp [hu]
  rw [Finset.sum_congr rfl h1, sum_ite_collapse2 m 0 hm 1 (fun _ => c * e 0 0)]
  simp

/-- The DC coefficient of the 2D DFT is the sum of all grid samples. -/
lemma fft2_dc (data : Grid) :
    (fft2 data).vals 0 0 =
      ∑ p ∈ Finset.range data.rows, ∑ q ∈ Finset.range data.cols, data.vals p q := by
  simp [fft2]

/-- C7 counterexample: on the all-ones 1×2 grid with identical old and new
directions, the reduction computation does NOT return the data unchanged
off the DC index: the output sample at the non-DC index (0, 1) is 0 while
the input sample there is 1 (zeroing the DC wavenumber subtracts the grid
mean from every spatial sample, not only from sample [0, 0]). -/
theorem C7_counterexample :
    (filtering.reductionCore wn0 th1 (cones 1 2) (cones 1 2) (cones 1 2)
        [30, 45] [60, 15] [30, 45] [60, 15]).vals 0 1 ≠ (cones 1 2).vals 0 1 := by
  have hF : (fft2 (cones 1 2)).vals 0 1 = 0 := by
    simp only [fft2, cones]
    rw [Finset.sum_range_one, Finset.sum_range_succ, Finset.sum_range_one]
    norm_num
    rw [show -(2 * (Real.pi : ℂ) * Complex.I * (1 / 2)) = -((Real.pi : ℂ) * Complex.I) from by
        ring,
      Complex.exp_neg, Complex.exp_pi_mul_I]
    norm_num
  simp only [cones] at hF
  simp only [filtering.reductionCore, wn0, th1, gmul, gdiv, setDC, ifft2, cones]
  rw [Finset.sum_range_one, Finset.sum_range_succ, Finset.sum_range_one]
  rw [hF]
  norm_num

/-- C7 amended: with identical old and new directions and directional
factors that do not vanish off the DC wavenumber, the reduction computation
returns the data with the grid mean subtracted from every sample (so it
equals the input exactly at those samples where the grid mean vanishes; the
frequency content is unchanged except for the zeroed DC term). -/
theorem C7_reduction_identity_amended
    (wn : Grid → Grid → Grid × Grid) (th : List ℝ → Grid → Grid → Grid)
    (x y data : Grid) (f s : List ℝ)
    (hm : 0 < data.rows) (hn : 0 < data.cols)
    (hkx : (wn x y).1.shape = data.shape)
    (hth : ∀ v kx ky, (th v kx ky).shape = kx.shape)
    (hnz : ∀ u < data.rows, ∀ v < data.cols, ¬(u = 0 ∧ v = 0) →
      (th f (wn x y).1 (wn x y).2).vals u v * (th s (wn x y).1 (wn x y).2).vals u v ≠ 0) :
    ∀ i < data.rows, ∀ j < data.cols,
      (filtering.reductionCore wn th x y data f s f s).vals i j =
        data.vals i j -
          (1 / ((data.rows : ℂ) * (data.cols : ℂ))) *
            ∑ p ∈ Finset.range data.rows, ∑ q ∈ Finset.range data.cols, data.vals p q := by
  intro i hi j hj
  have hr1 : (th f (wn x y).1 (wn x y).2).rows = data.rows :=
    (congrArg Prod.fst (hth f (wn x y).1 (wn x y).2)).trans (congrArg Prod.fst hkx)
  have hc1 : (th f (wn x y).1 (wn x y).2).cols = data.cols :=
    (congrArg Prod.snd (hth f (wn x y).1 (wn x y).2)).trans (congrArg Prod.snd hkx)
  show (ifft2 (gmul (setDC (gdiv
      (gmul (th f (wn x y).1 (wn x y).2) (th s (wn x y).1 (wn x y).2))
      (gmul (th f (wn x y).1 (wn x y).2) (th s (wn x y).1 (wn x y).2))) 0)
      (fft2 data))).vals i j = _
  have e1 : (ifft2 (gmul (setDC (gdiv
      (gmul (th f (wn x y).1 (wn x y).2) (th s (wn x y).1 (wn x y).2))
      (gmul (th f (wn x y).1 (wn x y).2) (th s (wn x y).1 (wn x y).2))) 0)
      (fft2 data))).vals i j =
      (ifft2 ⟨data.rows, data.cols,
        fun u v => if u = 0 ∧ v = 0 then 0 else (fft2 data).vals u v⟩).vals i j := by
    apply ifft2_congr_on
    · exact hr1
    · exact hc1
    · intro u hu v hv
      show (if u = 0 ∧ v = 0 then 0 else
          ((th f (wn x y).1 (wn x y).2).vals u v * (th s (wn x y).1 (wn x y).2).vals u v) /
          ((th f (wn x y).1 (wn x y).2).vals u v * (th s (wn x y).1 (wn x y).2).vals u v)) *
          (fft2 data).vals u v =
        (if u = 0 ∧ v = 0 then 0 else (fft2 data).vals u v)
      by_cases hc : u = 0 ∧ v = 0
      · rw [if_pos hc, if_pos hc, zero_mul]
      · rw [if_neg hc, if_neg hc, div_self (hnz u hu v hv hc), one_mul]
  rw [e1]
  show (1 / ((data.rows : ℂ) * (data.cols : ℂ))) *
      (∑ u ∈ Finset.range data.rows, ∑ v ∈ Finset.range data.cols,
        (if u = 0 ∧ v = 0 then 0 else (fft2 data).vals u v) *
          Complex.exp ((2 * Real.pi * Complex.I) *
            ((i : ℂ) * (u : ℂ) / (data.rows : ℂ) + (j : ℂ) * (v : ℂ) / (data.cols : ℂ)))) = _
  have hsplit : (∑ u ∈ Finset.range data.rows, ∑ v ∈ Finset.range data.cols,
      (if u = 0 ∧ v = 0 then 0 else (fft2 data).vals u v) *
        Complex.exp ((2 * Real.pi * Complex.I) *
          ((i : ℂ) * (u : ℂ) / (data.rows : ℂ) + (j : ℂ) * (v : ℂ) / (data.cols : ℂ))))
      = (∑ u ∈ Finset.range data.rows, ∑ v ∈ Finset.range data.cols,
          (fft2 data).vals u v *
            Complex.exp ((2 * Real.pi * Complex.I) *
              ((i : ℂ) * (u : ℂ) / (data.rows : ℂ) + (j : ℂ) * (v : ℂ) / (data.cols : ℂ))))
        - (∑ u ∈ Finset.range data.rows, ∑ v ∈ Finset.range data.cols,
            (if u = 0 ∧ v = 0 then (fft2 data).vals 0 0 else 0) *
              Complex.exp ((2 * Real.pi * Complex.I) *
                ((i : ℂ) * (u : ℂ) / (data.rows : ℂ) + (j : ℂ) * (v : ℂ) / (data.cols : ℂ)))) := by
    rw [← Finset.sum_sub_distrib]
    refine Finset.sum_congr rfl fun u _ => ?_
    rw [← Finset.sum_sub_distrib]
    refine Finset.sum_congr rfl fun v _ => ?_
    by_cases hc : u = 0 ∧ v = 0
    · obtain ⟨rfl, rfl⟩ := hc
      simp
    · simp [hc]
  have hifft : (1 / ((data.rows : ℂ) * (data.cols : ℂ))) *
      (∑ u ∈ Finset.range data.rows, ∑ v ∈ Finset.range data.cols,
        (fft2 data).vals u v *
          Complex.exp ((2 * Real.pi * Complex.I) *
            ((i : ℂ) * (u : ℂ) / (data.rows : ℂ) + (j : ℂ) * (v : ℂ) / (data.cols : ℂ))))
      = data.vals i j := ifft2_fft2_vals data hm hn i j hi hj
  rw [hsplit, mul_sub, hifft,
    sum_dc_collapse data.rows data.cols hm hn ((fft2 data).vals 0 0)
      (fun u v => Complex.exp ((2 * Real.pi * Complex.I) *
        ((i : ℂ) * (u : ℂ) / (data.rows : ℂ) + (j : ℂ) * (v : ℂ) / (data.cols : ℂ))))]
  rw [show Complex.exp ((2 * Real.pi * Complex.I) *
      ((i : ℂ) * ((0 : ℕ) : ℂ) / (data.rows : ℂ) + (j : ℂ) * ((0 : ℕ) : ℂ) / (data.cols : ℂ)))
      = 1 from by simp]
  rw [mul_one, fft2_dc]

/-- Witness for the amended C7 at a concrete valid input with nonvanishing
directional factors, evaluated at the non-DC sample (0, 1). -/
theorem C7_reduction_identity_amended_witness :
    (filtering.reductionCore wn0 th1 (cones 1 2) (cones 1 2) (cones 1 2)
        [30, 45] [60, 15] [30, 45] [60, 15]).vals 0 1 =
      (cones 1 2).vals 0 1 -
        (1 / (((cones 1 2).rows : ℂ) * ((cones 1 2).cols : ℂ))) *
          ∑ p ∈ Finset.range (cones 1 2).rows, ∑ q ∈ Finset.range (cones 1 2).cols,
            (cones 1 2).vals p q :=
  C7_reduction_identity_amended wn0 th1 (cones 1 2) (cones 1 2) (cones 1 2)
    [30, 45] [60, 15] (by norm_num [cones]) (by norm_num [cones]) rfl
    (fun _ _ _ => rfl) (fun u _ v _ _ => by norm_num [th1, wn0])
    0 (by norm_num [cones]) 1 (by norm_num [cones])

/-- Witness for C3 at a concrete input (`H = 1` on a 1×1 grid). -/
theorem C3_continuation_roundtrip_witness :
    ∃ g r, filtering.continuation wn0 (czero 1 1) (czero 1 1) (czero 1 1) 1 = .ok g ∧
      filtering.continuation wn0 (czero 1 1) (czero 1 1) g (-1) = .ok r ∧
      r.shape = (czero 1 1).shape ∧
      ∀ i < (czero 1 1).rows, ∀ j < (czero 1 1).cols, r.vals i j = (czero 1 1).vals i j :=
  C3_continuation_roundtrip wn0 (czero 1 1) (czero 1 1) (czero 1 1) 1 one_ne_zero
    Nat.one_pos Nat.one_pos rfl
